import Mathlib

/-!
Shallow embedding of the `aoccy` parser-combinator library (src/aoccy.py).

Python strings are modelled as `List Char`, Python's dynamically typed
parse results as the inductive `Val`, and a parser's `logic(view=view)`
invocation as a function `View → POut`.  A Python exception escaping a
parse (`TypeError`, `NameError`, ...) is the outcome `POut.crash`; the
unbounded gathering loop of `_between` (Python `itertools.count()`) is run
on an explicit fuel budget, and exhausting the budget is `POut.hang`
(the real loop would still be running).
-/

namespace Aoccy

/-- A dynamically typed Python value, as stored in `ParseResult.result`:
`None`, strings, and lists (encoded as cons-cells so that equality stays
derivable). -/
inductive Val where
  | none
  | str (s : List Char)
  | nil
  | cons (hd tl : Val)
  deriving DecidableEq

/-- The Python list value `[v1, ..., vn]`. -/
def Val.ofList : List Val → Val
  | [] => .nil
  | v :: vs => .cons v (Val.ofList vs)

/-- Python `repr` of a string without quotes or escapes in it, as used for
the expected-set entry of `lit` (`expected={repr(string)}`). -/
def pyRepr (s : List Char) : String :=
  "'" ++ String.mk s ++ "'"

/-- The cursor of `View.__init__`: an immutable `source` plus `idx`,
`line`, `column`. -/
structure View where
  source : List Char
  idx : Nat
  line : Nat
  column : Nat
  deriving DecidableEq

/-- `View.__getitem__` on the slice `[:n]`: the next `n` characters
starting at `idx` (clamped at the end of the source, as Python slicing
is). -/
def View.slice (v : View) (n : Nat) : List Char :=
  (v.source.drop v.idx).take n

/-- The characters after the last newline of `t`
(Python `t.rsplit("\n", 1)[1]`). -/
def afterLastNewline (t : List Char) : List Char :=
  (t.reverse.takeWhile (fun c => c ≠ '\n')).reverse

/-- `View.consume`: take the next `n` characters, advance `idx` by `n`,
and update `line`/`column` from the newlines of the consumed slice. -/
def View.consume (v : View) (n : Nat) : List Char × View :=
  let t := v.slice n
  (t,
    { source := v.source
      idx := v.idx + n
      line := v.line + t.count '\n'
      column := if '\n' ∈ t then (afterLastNewline t).length else v.column + t.length })

/-- `ParseResult.__init__`: `result` (default `None`), `succeeded`,
`consumed` (default `True`), `expected` (default the empty set). -/
structure ParseResult where
  result : Val
  succeeded : Bool
  consumed : Bool
  expected : Finset String
  deriving DecidableEq

/-- The observable outcome of one `Parser.parse(view)` call: a returned
`ParseResult` together with the state of the (mutated) view, a Python
exception propagating out of the call, or a diverging loop that has
exhausted its explicit fuel budget. -/
inductive POut where
  | ok (r : ParseResult) (v : View)
  | crash
  | hang
  deriving DecidableEq

/-- A parser, reduced to its `logic`: `view → outcome`. -/
def ParserFun : Type := View → POut

/-- The two shapes of logic function passed to the `parser` decorator:
one declaring the keyword-only parameter `view` (like `_eof`, `_pos`,
every combinator), and one lacking it (like `pure` and `_empty`). -/
inductive Logic where
  | withView (f : View → POut)
  | noView (f : Unit → ParseResult)

/-- `Parser.parse` calls `self.logic(view=view)`.  A logic function that
does not declare the `view` keyword parameter raises
`TypeError: got an unexpected keyword argument`. -/
def runLogic : Logic → ParserFun
  | .withView f, v => f v
  | .noView _, _ => .crash

/-- `lit(string)`: peek `len(string)` characters; on an exact match
consume them and succeed (with `consumed` left at its default `True`),
else fail with `consumed=False` and `expected={repr(string)}`. -/
def lit (s : List Char) : ParserFun := fun view =>
  let t := view.slice s.length
  if t = s then
    let r := view.consume s.length
    .ok ⟨Val.str r.1, true, true, ∅⟩ r.2
  else
    .ok ⟨Val.none, false, false, {pyRepr s}⟩ view

/-- `pure(v)` as written in the source: its body builds
`ParseResult(v, success=True, consumed=False)`, but the logic function's
signature is `def pure(v):` with no `view` parameter. -/
def pureLogic (w : Val) : Logic :=
  .noView (fun _ => ⟨w, true, false, ∅⟩)

/-- The parser `pure(v)` exposes: `runLogic` of its logic. -/
def pureP (w : Val) : ParserFun :=
  runLogic (pureLogic w)

/-- `_empty` as written in the source: its body builds
`ParseResult(success=False, consumed=False)`, but the signature is
`def _empty():` with no `view` parameter. -/
def emptyLogic : Logic :=
  .noView (fun _ => ⟨Val.none, false, false, ∅⟩)

/-- The module-level parser `empty = _empty()`. -/
def empty : ParserFun :=
  runLogic emptyLogic

/-- `_eof`: succeed zero-width at end of input, else fail with
`expected={"EOF"}`. -/
def eof : ParserFun := fun view =>
  if view.idx = view.source.length then
    .ok ⟨Val.none, true, false, ∅⟩ view
  else
    .ok ⟨Val.none, false, false, {"EOF"}⟩ view

/-- `_map(p, func)`: run `p`; on success replace `result` by
`func(result)`; any failure (or exception) passes through. -/
def _map (p : ParserFun) (func : Val → Val) : ParserFun := fun view =>
  match p view with
  | .ok t v => .ok (if t.succeeded then { t with result := func t.result } else t) v
  | e => e

/-- `_label(p, label)`: run `p`; when the outcome has `consumed` false and
a non-empty (truthy) expected set, replace the set by `{label}`. -/
def _label (p : ParserFun) (label : String) : ParserFun := fun view =>
  match p view with
  | .ok t v =>
      .ok (if t.consumed = false ∧ t.expected ≠ ∅ then { t with expected := {label} } else t) v
  | e => e

/-- `optional(p)` (the target of `~p`): run `p`; a failure that consumed
input is returned as is, a failure that did not consume is turned into a
success (its `result` stays the failure's `result`, Python `None`). -/
def optional (p : ParserFun) : ParserFun := fun view =>
  match p view with
  | .ok t v =>
      if t.succeeded then .ok t v
      else if t.consumed then .ok t v
      else .ok { t with succeeded := true } v
  | e => e

/-- `_or(first, second)` (the target of `a | b`): run `first`; keep its
outcome if it succeeded or consumed; otherwise run `second` from the
view `first` left behind and keep its outcome if it succeeded or
consumed; otherwise fail unconsumed with the union of the expected
sets. -/
def _or (first second : ParserFun) : ParserFun := fun view =>
  match first view with
  | .ok t1 v1 =>
      if t1.succeeded || t1.consumed then .ok t1 v1
      else
        match second v1 with
        | .ok t2 v2 =>
            if t2.succeeded || t2.consumed then .ok t2 v2
            else .ok ⟨Val.none, false, false, t1.expected ∪ t2.expected⟩ v2
        | e => e
  | e => e

/-- `bool(high)` as used in `_between`'s final
`ParseResult(..., consumed=bool(high), ...)`: `None` and `0` are falsy. -/
def consumedOf : Option Nat → Bool
  | Option.none => false
  | Option.some n => decide (0 < n)

/-- The first (`for _ in range(low)`) loop of `_between`: `low` mandatory
runs of `p`, accumulating `results`; the first failure (or exception) is
returned as is (`.inl`), otherwise the accumulated results and final
view are handed on (`.inr`). -/
def betweenMandatory (p : ParserFun) : Nat → List Val → View → POut ⊕ (List Val × View)
  | 0, acc, v => .inr (acc, v)
  | n + 1, acc, v =>
      match p v with
      | .ok t v1 =>
          if t.succeeded then betweenMandatory p n (acc ++ [t.result]) v1
          else .inl (.ok t v1)
      | e => .inl e

/-- How one run of the second (`we *may* succeed`) loop of `_between`
ends: an early `return` (consumed failure or exception), a `break`
(unconsumed failure `res` in hand), or the iteration range running out
with `last` holding the final value of `res`, if the loop body ever
ran. -/
inductive LoopEnd where
  | early (e : POut)
  | brk (acc : List Val) (res : ParseResult) (v : View)
  | exhausted (acc : List Val) (last : Option ParseResult) (v : View)

/-- The second loop of `_between`, iterated at most `n` times: on each
success append the result and continue; an unconsumed failure breaks;
a consumed failure (or an exception) returns. -/
def gatherLoop (p : ParserFun) : Nat → List Val → Option ParseResult → View → LoopEnd
  | 0, acc, last, v => .exhausted acc last v
  | n + 1, acc, last, v =>
      match p v with
      | .ok res v1 =>
          if res.succeeded then gatherLoop p n (acc ++ [res.result]) (some res) v1
          else if res.consumed then .early (.ok res v1)
          else .brk acc res v1
      | e => .early e

/-- `_between(p, low, high)` (the target of `p[low:high]` and `p[n]`):
the mandatory loop, then the gathering loop over `range(high - low)`
(or `itertools.count()` when `high is None`, modelled with the `fuel`
budget: running out of budget is `POut.hang`).  The final
`ParseResult(results, success=True, consumed=bool(high), expected=res.expected)`
reads the loop variable `res`, which raises `NameError` (`POut.crash`)
when the gathering loop body never ran — in particular whenever
`high - low ≤ 0`. -/
def _between (p : ParserFun) (low : Nat) (high : Option Nat) (fuel : Nat) : ParserFun :=
  fun view =>
    match betweenMandatory p low [] view with
    | .inl e => e
    | .inr (results, v1) =>
        let bound := match high with | Option.some h => h - low | Option.none => fuel
        match gatherLoop p bound results Option.none v1 with
        | .early e => e
        | .brk acc res v2 => .ok ⟨Val.ofList acc, true, consumedOf high, res.expected⟩ v2
        | .exhausted acc last v2 =>
            match high with
            | Option.some _ =>
                match last with
                | Option.some res => .ok ⟨Val.ofList acc, true, consumedOf high, res.expected⟩ v2
                | Option.none => .crash
            | Option.none => .hang

/-- What `f(result)` hands back to `bind`: a parser, or any other
value. -/
inductive BindRes where
  | parser (q : ParserFun)
  | value (w : Val)

/-- Modelled from the spec: the `_bind` combinator invoked by
`Parser.__call__` (and described in §4.6 as `p.bind(f)`) is not defined
in this source file.  Per the spec: on `p`'s success, invoke
`f(result)`; if that returned a parser, run it against the current view
and return its outcome with `consumed` OR-folded with `p`'s consumption;
if it returned a non-parser value, behave as `map`; on `p`'s failure the
failure passes through. -/
def _bind (p : ParserFun) (f : Val → BindRes) : ParserFun := fun view =>
  match p view with
  | .ok t v1 =>
      if t.succeeded then
        match f t.result with
        | .parser q =>
            match q v1 with
            | .ok t2 v2 => .ok { t2 with consumed := t2.consumed || t.consumed } v2
            | e => e
        | .value w => .ok { t with result := w } v1
      else .ok t v1
  | e => e

/-- `english_format_list(strings)`: one item is returned alone; otherwise
`", ".join(strings[:-1]) + ","*(len(strings)>2) + " or " + strings[-1]`.
The empty list raises `IndexError` at `strings[-1]` (modelled as
`Option.none`). -/
def english_format_list (strings : List String) : Option String :=
  match strings with
  | [] => Option.none
  | [s] => Option.some s
  | s :: t :: u =>
      Option.some
        (String.intercalate ", " ((s :: t :: u).dropLast)
          ++ (if (s :: t :: u).length > 2 then "," else "")
          ++ " or " ++ (s :: t :: u).getLastD "")

/-- A fresh view over the one-character input `"a"`, as built by
`parse_text`. -/
def va : View := ⟨['a'], 0, 0, 0⟩

/-- A fresh view over the one-character input `"b"`. -/
def vb : View := ⟨['b'], 0, 0, 0⟩

/-- A fresh view over the empty input `""`. -/
def vempty : View := ⟨[], 0, 0, 0⟩

/-- A fresh view over the two-character input `"ab"`. -/
def vab : View := ⟨['a', 'b'], 0, 0, 0⟩

/-- C1: the claimed invariant `consumed ↔ the parser advanced idx` is
broken by `_between`, which hard-codes `consumed=bool(high)`: on `"a"`,
`lit("a")[:]` advances `idx` from 0 to 1 yet reports `consumed=False`
(since `bool(None)` is `False`), and on `""`, `lit("a")[0:2]` succeeds
zero-width yet reports `consumed=True` (since `bool(2)` is `True`). -/
theorem C1_between_consumed_bug :
    _between (lit ['a']) 0 Option.none 2 va =
      .ok ⟨Val.cons (Val.str ['a']) Val.nil, true, false, {pyRepr ['a']}⟩ ⟨['a'], 1, 0, 1⟩ ∧
    (⟨['a'], 1, 0, 1⟩ : View).idx ≠ va.idx ∧
    _between (lit ['a']) 0 (Option.some 2) 0 vempty =
      .ok ⟨Val.nil, true, true, {pyRepr ['a']}⟩ vempty := by
  decide

/-- C2: `a | b` keeps `a`'s outcome (for any second branch) when `a`
succeeded or consumed; otherwise it runs `b` from the view `a` left and
keeps `b`'s outcome when `b` succeeded or consumed; when both fail
without consuming it fails unconsumed with the union of the expected
sets. -/
theorem C2_or_spec (a b : ParserFun) (v : View) (t1 : ParseResult) (v1 : View)
    (ha : a v = .ok t1 v1) :
    ((t1.succeeded = true ∨ t1.consumed = true) → ∀ c : ParserFun, _or a c v = .ok t1 v1) ∧
    (t1.succeeded = false → t1.consumed = false →
      ∀ t2 v2, b v1 = .ok t2 v2 →
        ((t2.succeeded = true ∨ t2.consumed = true) → _or a b v = .ok t2 v2) ∧
        (t2.succeeded = false → t2.consumed = false →
          _or a b v = .ok ⟨Val.none, false, false, t1.expected ∪ t2.expected⟩ v2)) := by
  constructor
  · intro h c
    rcases h with h | h <;> simp [_or, ha, h]
  · intro hs hc t2 v2 hb
    constructor
    · intro h
      rcases h with h | h <;> simp [_or, ha, hs, hc, hb, h]
    · intro hs2 hc2
      simp [_or, ha, hs, hc, hb, hs2, hc2]

/-- Witness for C2: on `"a"`, `lit("b") | lit("a")` falls through the
uncommitted failure of the first branch and returns the second branch's
success. -/
theorem C2_or_spec_witness :
    _or (lit ['b']) (lit ['a']) va = .ok ⟨Val.str ['a'], true, true, ∅⟩ ⟨['a'], 1, 0, 1⟩ :=
  ((C2_or_spec (lit ['b']) (lit ['a']) va ⟨Val.none, false, false, {pyRepr ['b']}⟩ va
      (by decide)).2 (by decide) (by decide)
    ⟨Val.str ['a'], true, true, ∅⟩ ⟨['a'], 1, 0, 1⟩ (by decide)).1 (Or.inl (by decide))

/-- C3: `p[n]` cannot succeed: whenever the `n` mandatory runs of `p`
succeed, the gathering loop of `_between` runs zero iterations
(`range(n - n)`), so the final `ParseResult(...)` line reads the unbound
loop variable `res` and raises `NameError`.  Concretely, on `"a"`,
`lit("a")` succeeds once, yet `lit("a")[1]` crashes instead of returning
the one-element list the claim promises. -/
theorem C3_between_exact_crash :
    lit ['a'] va = .ok ⟨Val.str ['a'], true, true, ∅⟩ ⟨['a'], 1, 0, 1⟩ ∧
    _between (lit ['a']) 1 (Option.some 1) 0 va = .crash := by
  decide

/-- C4: `p.bind(f)` (the `_bind` combinator, modelled from the spec) on
`p`'s failure passes the failure through; on `p`'s success it invokes
`f(result)`: a parser result is run against the current view with
`consumed` OR-folded, a non-parser value makes it behave as `p.map`. -/
theorem C4_bind_spec (p : ParserFun) (f : Val → BindRes) (v : View)
    (t : ParseResult) (v1 : View) (hp : p v = .ok t v1) :
    (t.succeeded = false → _bind p f v = .ok t v1) ∧
    (t.succeeded = true →
      (∀ q, f t.result = .parser q →
        ∀ t2 v2, q v1 = .ok t2 v2 →
          _bind p f v = .ok { t2 with consumed := t2.consumed || t.consumed } v2) ∧
      (∀ w, f t.result = .value w →
        ∀ g : Val → Val, g t.result = w → _bind p f v = _map p g v)) := by
  constructor
  · intro hs
    simp [_bind, hp, hs]
  · intro hs
    constructor
    · intro q hq t2 v2 hq2
      simp [_bind, hp, hs, hq, hq2]
    · intro w hw g hg
      simp [_bind, _map, hp, hs, hw, hg]

/-- Witness for C4: on `"ab"`, binding `lit("a")` to a function that
returns the parser `lit("b")` runs that parser at index 1 and succeeds
with both characters consumed. -/
theorem C4_bind_spec_witness :
    _bind (lit ['a']) (fun _ => BindRes.parser (lit ['b'])) vab =
      .ok ⟨Val.str ['b'], true, true, ∅⟩ ⟨['a', 'b'], 2, 0, 2⟩ :=
  ((C4_bind_spec (lit ['a']) (fun _ => BindRes.parser (lit ['b'])) vab
      ⟨Val.str ['a'], true, true, ∅⟩ ⟨['a', 'b'], 1, 0, 1⟩ (by decide)).2 rfl).1
    (lit ['b']) rfl ⟨Val.str ['b'], true, true, ∅⟩ ⟨['a', 'b'], 2, 0, 2⟩ (by decide)

/-- C5 counterexample: the claim says `~p` and `p[0:1]` agree on the
`consumed` flag, but on `"b"` (where `lit("a")` fails without consuming)
`~lit("a")` reports `consumed=False` while `lit("a")[0:1]` reports
`consumed=True` (`bool(1)`). -/
theorem C5_optional_between_counterexample :
    optional (lit ['a']) vb = .ok ⟨Val.none, true, false, {pyRepr ['a']}⟩ vb ∧
    _between (lit ['a']) 0 (Option.some 1) 0 vb =
      .ok ⟨Val.nil, true, true, {pyRepr ['a']}⟩ vb ∧
    (⟨Val.nil, true, true, {pyRepr ['a']}⟩ : ParseResult).consumed ≠
      (⟨Val.none, true, false, {pyRepr ['a']}⟩ : ParseResult).consumed := by
  decide

/-- C5 amended: `~p` and `p[0:1]` agree on the success flag, the expected
set and the final view, with `~p` yielding `p`'s single result (or the
`None` sentinel) where `p[0:1]` yields the one-element (or empty) list,
and both propagate `p`'s consumed failure; but the `consumed` flags
differ: `p[0:1]` reports `consumed=True` on every success, while `~p`
reports `p`'s own consumption. -/
theorem C5_optional_between_amended (p : ParserFun) (v : View) (fuel : Nat)
    (t : ParseResult) (v1 : View) (hp : p v = .ok t v1) :
    (t.succeeded = true →
      optional p v = .ok t v1 ∧
      _between p 0 (Option.some 1) fuel v =
        .ok ⟨Val.ofList [t.result], true, true, t.expected⟩ v1) ∧
    (t.succeeded = false → t.consumed = true →
      optional p v = .ok t v1 ∧ _between p 0 (Option.some 1) fuel v = .ok t v1) ∧
    (t.succeeded = false → t.consumed = false →
      optional p v = .ok { t with succeeded := true } v1 ∧
      _between p 0 (Option.some 1) fuel v = .ok ⟨Val.nil, true, true, t.expected⟩ v1) := by
  refine ⟨?_, ?_, ?_⟩
  · intro hs
    constructor
    · simp [optional, hp, hs]
    · simp [_between, betweenMandatory, gatherLoop, consumedOf, hp, hs, Val.ofList]
  · intro hs hc
    constructor
    · simp [optional, hp, hs, hc]
    · simp [_between, betweenMandatory, gatherLoop, consumedOf, hp, hs, hc]
  · intro hs hc
    constructor
    · simp [optional, hp, hs, hc]
    · simp [_between, betweenMandatory, gatherLoop, consumedOf, hp, hs, hc, Val.ofList]

/-- Witness for C5 amended: on `"a"`, `~lit("a")` returns `lit("a")`'s
success and `lit("a")[0:1]` returns the one-element list. -/
theorem C5_optional_between_amended_witness :
    optional (lit ['a']) va = .ok ⟨Val.str ['a'], true, true, ∅⟩ ⟨['a'], 1, 0, 1⟩ ∧
    _between (lit ['a']) 0 (Option.some 1) 0 va =
      .ok ⟨Val.cons (Val.str ['a']) Val.nil, true, true, ∅⟩ ⟨['a'], 1, 0, 1⟩ :=
  (C5_optional_between_amended (lit ['a']) va 0 ⟨Val.str ['a'], true, true, ∅⟩
    ⟨['a'], 1, 0, 1⟩ (by decide)).1 rfl

/-- C6 counterexample: the claim says `p.label(n)` leaves `p`'s successes
unchanged, but `_label` only tests `consumed` and `expected`: on `"b"`,
`~lit("a")` succeeds (zero-width, carrying `expected={"'a'"}`), and
labelling it still replaces the expected set with `{"x"}`. -/
theorem C6_label_counterexample :
    optional (lit ['a']) vb = .ok ⟨Val.none, true, false, {pyRepr ['a']}⟩ vb ∧
    _label (optional (lit ['a'])) "x" vb ≠ .ok ⟨Val.none, true, false, {pyRepr ['a']}⟩ vb ∧
    _label (optional (lit ['a'])) "x" vb = .ok ⟨Val.none, true, false, {"x"}⟩ vb := by
  decide

/-- C6 amended: `p.label(n)` replaces the expected set by `{n}` whenever
`p`'s outcome has `consumed=false` and a non-empty expected set —
regardless of the success flag (zero-width successes carrying
expectations are relabelled too); every other outcome passes through
unchanged. -/
theorem C6_label_amended (p : ParserFun) (n : String) (v : View)
    (t : ParseResult) (v1 : View) (hp : p v = .ok t v1) :
    (t.consumed = false → t.expected ≠ ∅ →
      _label p n v = .ok { t with expected := {n} } v1) ∧
    (t.consumed = true ∨ t.expected = ∅ → _label p n v = .ok t v1) := by
  constructor
  · intro hc he
    simp [_label, hp, hc, he]
  · intro h
    rcases h with h | h <;> simp [_label, hp, h]

/-- Witness for C6 amended: on `"b"`, `lit("a")` fails unconsumed with a
non-empty expected set, and labelling it reports exactly `{"x"}`. -/
theorem C6_label_amended_witness :
    _label (lit ['a']) "x" vb = .ok ⟨Val.none, false, false, {"x"}⟩ vb :=
  (C6_label_amended (lit ['a']) "x" vb ⟨Val.none, false, false, {pyRepr ['a']}⟩ vb
    (by decide)).1 rfl (by decide)

/-- C7: `pure(v)` never succeeds — its logic function is declared without
the keyword-only `view` parameter that `Parser.parse` passes
(`self.logic(view=view)`), so every invocation raises `TypeError`
instead of returning the zero-width success the claim (and §4.1)
describe. -/
theorem C7_pure_crash (w : Val) (v : View) : pureP w v = .crash := rfl

/-- C8: `empty` is not an identity for `|` — like `pure`, `_empty` lacks
the `view` parameter, so parsing it raises `TypeError`: on `"a"`,
`empty | lit("a")` crashes while `lit("a")` succeeds, and on `"b"`,
`lit("a") | empty` crashes (the uncommitted failure of `lit("a")` makes
`_or` invoke `empty`). -/
theorem C8_empty_or_crash :
    _or empty (lit ['a']) va = .crash ∧
    lit ['a'] va = .ok ⟨Val.str ['a'], true, true, ∅⟩ ⟨['a'], 1, 0, 1⟩ ∧
    _or (lit ['a']) empty vb = .crash := by
  decide

/-- C9 counterexample: the claim says three items render without a comma
before the "or", but `english_format_list` appends `","*(len>2)`: three
items render as `"a, b, or c"`, not `"a, b or c"`. -/
theorem C9_english_list_counterexample :
    english_format_list ["a", "b", "c"] = Option.some "a, b, or c" ∧
    english_format_list ["a", "b", "c"] ≠ Option.some "a, b or c" := by
  decide

/-- C9 amended: a single item renders alone; two items render as
`"a or b"` with no comma; three or more items render with an Oxford
comma before the "or": `"a, b, or c"`. -/
theorem C9_english_list_amended :
    (∀ a : String, english_format_list [a] = Option.some a) ∧
    (∀ a b : String, english_format_list [a, b] = Option.some (a ++ " or " ++ b)) ∧
    (∀ (a b c : String) (r : List String),
      english_format_list (a :: b :: c :: r) =
        Option.some (String.intercalate ", " ((a :: b :: c :: r).dropLast)
          ++ "," ++ " or " ++ (a :: b :: c :: r).getLastD "")) := by
  refine ⟨fun a => rfl, ?_, ?_⟩
  · intro a b
    simp [english_format_list, String.intercalate, String.intercalate.go]
  · intro a b c r
    simp [english_format_list]

/-- If `p` never hangs, an early return of the gathering loop is not a
hang: it is either a consumed failure of `p` or `p`'s own non-hanging
exception. -/
theorem gatherLoop_early_ne_hang (p : ParserFun) (hnh : ∀ w, p w ≠ .hang) :
    ∀ (fuel : Nat) (acc : List Val) (last : Option ParseResult) (w : View) (e : POut),
      gatherLoop p fuel acc last w = .early e → e ≠ .hang := by
  intro fuel
  induction fuel with
  | zero =>
      intro acc last w e h
      simp [gatherLoop] at h
  | succ n ih =>
      intro acc last w e h
      cases hpw : p w with
      | ok res w1 =>
          simp only [gatherLoop, hpw] at h
          by_cases hs : res.succeeded = true
          · rw [if_pos hs] at h
            exact ih _ _ _ _ h
          · by_cases hc : res.consumed = true
            · rw [if_neg (by simp [hs]), if_pos (by simp [hc])] at h
              injection h with h1
              rw [← h1]
              simp
            · rw [if_neg (by simp [hs])] at h
              rw [if_neg (by simp [hc])] at h
              exact absurd h (by simp)
      | crash =>
          simp only [gatherLoop, hpw] at h
          injection h with h1
          rw [← h1]
          simp
      | hang => exact absurd hpw (hnh w)

/-- If `p` never hangs, an `.inl` early return of the mandatory loop is
not a hang. -/
theorem betweenMandatory_inl_ne_hang (p : ParserFun) (hnh : ∀ w, p w ≠ .hang) :
    ∀ (n : Nat) (acc : List Val) (v : View) (e : POut),
      betweenMandatory p n acc v = .inl e → e ≠ .hang := by
  intro n
  induction n with
  | zero =>
      intro acc v e h
      simp [betweenMandatory] at h
  | succ m ih =>
      intro acc v e h
      cases hpw : p v with
      | ok t v1 =>
          simp only [betweenMandatory, hpw] at h
          by_cases hs : t.succeeded = true
          · rw [if_pos hs] at h
            exact ih _ _ _ h
          · rw [if_neg hs] at h
            injection h with h1
            rw [← h1]
            simp
      | crash =>
          simp only [betweenMandatory, hpw] at h
          injection h with h1
          rw [← h1]
          simp
      | hang => exact absurd hpw (hnh v)

/-- Runs of `p` that strictly advance within an unchanged source keep the
mandatory loop's final view inside the source, over the same source. -/
theorem betweenMandatory_inr_bounds (p : ParserFun)
    (hadv : ∀ w t w1, p w = .ok t w1 → t.succeeded = true →
      w.idx < w1.idx ∧ w1.idx ≤ w1.source.length ∧ w1.source = w.source) :
    ∀ (n : Nat) (acc : List Val) (v : View) (acc1 : List Val) (v1 : View),
      v.idx ≤ v.source.length →
      betweenMandatory p n acc v = .inr (acc1, v1) →
      v1.source = v.source ∧ v1.idx ≤ v1.source.length := by
  intro n
  induction n with
  | zero =>
      intro acc v acc1 v1 hv h
      simp only [betweenMandatory, Sum.inr.injEq, Prod.mk.injEq] at h
      rw [← h.2]
      exact ⟨rfl, hv⟩
  | succ m ih =>
      intro acc v acc1 v1 hv h
      cases hpw : p v with
      | ok t v2 =>
          simp only [betweenMandatory, hpw] at h
          by_cases hs : t.succeeded = true
          · rw [if_pos hs] at h
            obtain ⟨_, hle, hsrc⟩ := hadv v t v2 hpw hs
            obtain ⟨h1, h2⟩ := ih _ _ _ _ hle h
            exact ⟨h1.trans hsrc, h2⟩
          · rw [if_neg hs] at h
            exact absurd h (by simp)
      | crash => simp [betweenMandatory, hpw] at h
      | hang => simp [betweenMandatory, hpw] at h

/-- The heart of C10: when every success of `p` strictly advances `idx`
within an unchanged source, a fuel budget of `remaining + 1` iterations
is enough for the gathering loop — it never runs the range out. -/
theorem gatherLoop_not_exhausted (p : ParserFun)
    (hadv : ∀ w t w1, p w = .ok t w1 → t.succeeded = true →
      w.idx < w1.idx ∧ w1.idx ≤ w1.source.length ∧ w1.source = w.source) :
    ∀ (fuel : Nat) (acc : List Val) (last : Option ParseResult) (w : View),
      w.idx ≤ w.source.length → w.source.length + 1 - w.idx ≤ fuel →
      ∀ (acc2 : List Val) (l2 : Option ParseResult) (w2 : View),
        gatherLoop p fuel acc last w ≠ .exhausted acc2 l2 w2 := by
  intro fuel
  induction fuel with
  | zero =>
      intro acc last w hw hf acc2 l2 w2 hcon
      omega
  | succ n ih =>
      intro acc last w hw hf acc2 l2 w2 hcon
      cases hpw : p w with
      | ok res w1 =>
          simp only [gatherLoop, hpw] at hcon
          by_cases hs : res.succeeded = true
          · rw [if_pos hs] at hcon
            obtain ⟨hlt, hle, hsrc⟩ := hadv w res w1 hpw hs
            refine ih (acc ++ [res.result]) (some res) w1 hle ?_ acc2 l2 w2 hcon
            rw [hsrc]
            omega
          · by_cases hc : res.consumed = true
            · rw [if_neg hs, if_pos (by simp [hc])] at hcon
              exact absurd hcon (by simp)
            · rw [if_neg hs, if_neg (by simp [hc])] at hcon
              exact absurd hcon (by simp)
      | crash =>
          simp [gatherLoop, hpw] at hcon
      | hang =>
          simp [gatherLoop, hpw] at hcon

/-- C10: if every successful invocation of `p` strictly advances the
view's `idx` (staying within the unchanged, finite source) and `p`
itself always terminates, then the unbounded repetition `p[low:]`
terminates: a budget of `len(source) + 1` gathering iterations is never
exhausted, because each iteration either fails (ending the loop) or
strictly shrinks the remaining input. -/
theorem C10_between_unbounded_terminates (p : ParserFun)
    (hadv : ∀ w t w1, p w = .ok t w1 → t.succeeded = true →
      w.idx < w1.idx ∧ w1.idx ≤ w1.source.length ∧ w1.source = w.source)
    (hnh : ∀ w, p w ≠ .hang)
    (low : Nat) (v : View) (fuel : Nat)
    (hv : v.idx ≤ v.source.length)
    (hfuel : v.source.length + 1 ≤ fuel) :
    _between p low Option.none fuel v ≠ .hang := by
  intro hcon
  simp only [_between] at hcon
  cases hm : betweenMandatory p low [] v with
  | inl e =>
      rw [hm] at hcon
      exact betweenMandatory_inl_ne_hang p hnh low [] v e hm hcon
  | inr pr =>
      obtain ⟨acc, v1⟩ := pr
      rw [hm] at hcon
      simp only at hcon
      cases hg : gatherLoop p fuel acc Option.none v1 with
      | early e =>
          rw [hg] at hcon
          exact gatherLoop_early_ne_hang p hnh fuel acc Option.none v1 e hg hcon
      | brk a r w2 =>
          rw [hg] at hcon
          exact absurd hcon (by simp)
      | exhausted a l w2 =>
          obtain ⟨hsrc, hidx⟩ := betweenMandatory_inr_bounds p hadv low [] v acc v1 hv hm
          refine gatherLoop_not_exhausted p hadv fuel acc Option.none v1 hidx ?_ a l w2 hg
          rw [hsrc]
          omega

/-- `lit("a")` on success consumes exactly one character: it advances
`idx` by one, stays within the source, and leaves the source itself
unchanged. -/
theorem lit_a_advances :
    ∀ (w : View) (t : ParseResult) (w1 : View),
      lit ['a'] w = .ok t w1 → t.succeeded = true →
      w.idx < w1.idx ∧ w1.idx ≤ w1.source.length ∧ w1.source = w.source := by
  intro w t w1 h hs
  unfold lit at h
  by_cases hc : w.slice (['a'] : List Char).length = ['a']
  · rw [if_pos hc] at h
    injection h with h1 h2
    have hne : w.source.drop w.idx ≠ [] := by
      intro hnil
      rw [View.slice, hnil] at hc
      exact absurd hc (by simp)
    have hlt : w.idx < w.source.length := by
      by_contra hge
      exact hne (List.drop_eq_nil_iff.mpr (by omega))
    rw [← h2]
    refine ⟨by simp [View.consume], ?_, rfl⟩
    simp [View.consume]
    omega
  · rw [if_neg hc] at h
    injection h with h1 h2
    rw [← h1] at hs
    exact absurd hs (by simp)

/-- `lit` always terminates (it returns a `ParseResult` on both
branches). -/
theorem lit_ne_hang (s : List Char) (w : View) : lit s w ≠ .hang := by
  unfold lit
  by_cases hc : w.slice s.length = s
  · rw [if_pos hc]
    simp
  · rw [if_neg hc]
    simp

/-- Witness for C10: on `"a"`, `lit("a")[0:]` with a budget of
`len + 1 = 2` gathering iterations terminates. -/
theorem C10_between_unbounded_terminates_witness :
    va.idx ≤ va.source.length ∧ va.source.length + 1 ≤ 2 ∧
    _between (lit ['a']) 0 Option.none 2 va ≠ .hang :=
  ⟨by decide, by decide,
    C10_between_unbounded_terminates (lit ['a']) lit_a_advances (lit_ne_hang ['a'])
      0 va 2 (by decide) (by decide)⟩

end Aoccy
